import Mathlib

/-!
Verification of the mgohttp middleware (Clever/mgohttp).

This file gives a shallow embedding, in Lean, of the core of the repository:

* `TimeoutWriter` — the buffering response shim `timeoutWriter` from
  `mgosessionpool` (borrowed from net/http's TimeoutHandler), with its
  operations `Write`, `WriteHeader`, `setTimedOut` and
  `copyToResponseWriter`.  The lock serializes every operation, so the
  sequential semantics of each operation is modelled as a pure function on
  the shim state; the real `http.ResponseWriter` is modelled as the trace
  of calls (`WEvent` list) the code performs on it.
* The lazy per-request session lease (`getSession` closure of
  `SessionHandler.ServeHTTP` / `MongoSessionInjector.ServeHTTP`): a
  single-slot cache whose side effects on the mgo collaborator (`Copy`,
  `SetSocketTimeout`, `Close`) are recorded as a `SessEvent` trace.
* The context capability carrier (`internal.NewContext`, `FromContext`);
  the Go `panic` is modelled as `Except.error` carrying the panic message.
* The race coordinator `ServeHTTP`: the wrapped handler is an opaque
  collaborator, so its interaction with the shim and with the session
  capability is a script (`List HandlerOp`); the outcome of the
  select-race is a boolean (`completedFirst`).  Tracing spans and
  structured logging are excluded collaborators and are not modelled.
* A two-thread interleaving model of the `getSession` closure, in which
  the mutex-protected region is a single atomic step but the
  `newSession != nil` fast-path check is a separate unsynchronized step,
  exactly as in the source, where the check precedes `sessionMutex.Lock()`
  and is not repeated inside the critical section.
-/

/-- Go `http.StatusOK`. -/
def statusOK : Nat := 200

/-- Go `http.StatusServiceUnavailable`. -/
def statusServiceUnavailable : Nat := 503

/-- The sentinel error returned by a write after timeout:
`http.ErrHandlerTimeout`. -/
inductive WriteErr where
  | errHandlerTimeout
deriving DecidableEq

/-- Header maps (`http.Header`): association list from field name to values.
Canonicalization of field names is a detail of the excluded net/http
collaborator and is not modelled. -/
abbrev HeaderMap := List (String × List String)

/-- The buffering response shim `timeoutWriter` of
`src/unnamed/part_000`.  The embedded `http.ResponseWriter` field `w` is
not part of the state: it is only touched by `copyToResponseWriter`, which
here returns the trace of calls made on it.  `wbuf` is the body buffer
(bytes as `Nat`), `h` the captured header map, and `code` starts at the Go
zero value 0. -/
structure TimeoutWriter where
  h : HeaderMap
  wbuf : List Nat
  timedOut : Bool
  wroteHeader : Bool
  code : Nat
deriving DecidableEq

/-- The shim as allocated by `ServeHTTP`:
`&timeoutWriter{w: w, h: make(http.Header)}`. -/
def initTW : TimeoutWriter :=
  { h := [], wbuf := [], timedOut := false, wroteHeader := false, code := 0 }

/-- `timeoutWriter.setTimedOut` (the lock only serializes; state change is
setting the flag). -/
def TimeoutWriter.setTimedOut (tw : TimeoutWriter) : TimeoutWriter :=
  { tw with timedOut := true }

/-- The private `timeoutWriter.writeHeader(code)` helper: records the code
and marks the header sent. -/
def TimeoutWriter.writeHeader (tw : TimeoutWriter) (code : Nat) : TimeoutWriter :=
  { tw with wroteHeader := true, code := code }

/-- `timeoutWriter.Write(p)`: under the lock, reject with
`http.ErrHandlerTimeout` if timed out; otherwise implicitly record status
200 if no header was sent, then append to the buffer.  `bytes.Buffer.Write`
always returns `(len(p), nil)`. -/
def TimeoutWriter.Write (tw : TimeoutWriter) (p : List Nat) :
    (Nat × Option WriteErr) × TimeoutWriter :=
  if tw.timedOut then ((0, some WriteErr.errHandlerTimeout), tw)
  else
    let tw1 := if tw.wroteHeader then tw else tw.writeHeader statusOK
    ((p.length, none), { tw1 with wbuf := tw1.wbuf ++ p })

/-- `timeoutWriter.WriteHeader(code)`: no-op if timed out or a header was
already sent. -/
def TimeoutWriter.WriteHeader (tw : TimeoutWriter) (code : Nat) : TimeoutWriter :=
  if tw.timedOut || tw.wroteHeader then tw else tw.writeHeader code

/-- A call performed on the real `http.ResponseWriter`: a mutation of its
header map, a `WriteHeader` call, or a body `Write` call. -/
inductive WEvent where
  | setHeader (k : String) (v : List String)
  | writeHeader (code : Nat)
  | write (bytes : List Nat)
deriving DecidableEq

/-- `timeoutWriter.copyToResponseWriter(w)`: copies the captured headers
into `w.Header()`, defaults the code to 200 when no header was recorded,
then calls `w.WriteHeader` and `w.Write` — in that source order.  Returns
the trace of calls on `w` together with the (mutated) shim. -/
def TimeoutWriter.copyToResponseWriter (tw : TimeoutWriter) :
    List WEvent × TimeoutWriter :=
  let hdrEvents := tw.h.map fun kv => WEvent.setHeader kv.1 kv.2
  let tw1 := if tw.wroteHeader then tw else { tw with code := statusOK }
  (hdrEvents ++ [WEvent.writeHeader tw1.code, WEvent.write tw1.wbuf], tw1)

/-- The state-mutating operations of the shim, for quantifying over "every
operation". -/
inductive TWOp where
  | write (p : List Nat)
  | writeHeader (code : Nat)
  | setTimedOut
  | copyToRW
deriving DecidableEq

/-- State effect of one shim operation. -/
def applyTWOp (tw : TimeoutWriter) : TWOp → TimeoutWriter
  | TWOp.write p => (tw.Write p).2
  | TWOp.writeHeader code => tw.WriteHeader code
  | TWOp.setTimedOut => tw.setTimedOut
  | TWOp.copyToRW => tw.copyToResponseWriter.2

/-- C1: once `setTimedOut` has run, every `Write` returns the sentinel
`http.ErrHandlerTimeout` with count 0 and leaves the shim state — body
buffer, status code, header-sent flag — entirely unchanged, and no shim
operation ever clears the timed-out flag. -/
theorem timedOut_write_rejected_and_flag_permanent
    (tw : TimeoutWriter) (p : List Nat) (op : TWOp)
    (h : tw.timedOut = true) :
    tw.Write p = ((0, some WriteErr.errHandlerTimeout), tw) ∧
    (applyTWOp tw op).timedOut = true := by
  constructor
  · simp [TimeoutWriter.Write, h]
  · cases op <;>
      simp [applyTWOp, TimeoutWriter.Write, TimeoutWriter.WriteHeader,
        TimeoutWriter.setTimedOut, TimeoutWriter.copyToResponseWriter,
        TimeoutWriter.writeHeader, h] <;>
      split <;> simp [h]

/-- Witness for C1 at a concrete timed-out shim. -/
theorem timedOut_write_rejected_and_flag_permanent_witness :
    (initTW.setTimedOut).Write [1, 2] =
        ((0, some WriteErr.errHandlerTimeout), initTW.setTimedOut) ∧
    (applyTWOp initTW.setTimedOut TWOp.copyToRW).timedOut = true :=
  timedOut_write_rejected_and_flag_permanent initTW.setTimedOut [1, 2]
    TWOp.copyToRW rfl

/-- C7: a `Write` on a shim that is not timed out and has not sent a header
implicitly records status 200 (marking the header sent) before appending
the bytes, returns the byte count with no error, and a subsequent flush
emits status 200. -/
theorem write_defaults_status_ok
    (tw : TimeoutWriter) (p : List Nat)
    (h1 : tw.timedOut = false) (h2 : tw.wroteHeader = false) :
    tw.Write p = ((p.length, none),
      { tw with wroteHeader := true, code := statusOK, wbuf := tw.wbuf ++ p }) ∧
    ((tw.Write p).2).copyToResponseWriter.1 =
      (tw.h.map fun kv => WEvent.setHeader kv.1 kv.2) ++
        [WEvent.writeHeader statusOK, WEvent.write (tw.wbuf ++ p)] := by
  have hw : tw.Write p = ((p.length, none),
      { tw with wroteHeader := true, code := statusOK, wbuf := tw.wbuf ++ p }) := by
    simp [TimeoutWriter.Write, TimeoutWriter.writeHeader, h1, h2]
  refine ⟨hw, ?_⟩
  rw [hw]
  simp [TimeoutWriter.copyToResponseWriter]

/-- A concrete fresh shim carrying one captured header, for the witnesses. -/
def twHdr : TimeoutWriter := { initTW with h := [("A", ["b"])] }

/-- Witness for C7 at a concrete fresh shim carrying one header. -/
theorem write_defaults_status_ok_witness :
    twHdr.Write [7] = ((([7] : List Nat).length, none),
      { twHdr with wroteHeader := true, code := statusOK, wbuf := twHdr.wbuf ++ [7] }) ∧
    ((twHdr.Write [7]).2).copyToResponseWriter.1 =
      (twHdr.h.map fun kv => WEvent.setHeader kv.1 kv.2) ++
        [WEvent.writeHeader statusOK, WEvent.write (twHdr.wbuf ++ [7])] :=
  write_defaults_status_ok twHdr [7] rfl rfl

/-- C10: on a shim that is not timed out and has no header sent, any
`Write` — also with an empty byte slice — permanently marks the header as
sent with status 200, so every later `WriteHeader code` call is a no-op
and the flush emits status 200, not the later code. -/
theorem empty_write_locks_status
    (tw : TimeoutWriter) (p : List Nat) (code : Nat)
    (h1 : tw.timedOut = false) (h2 : tw.wroteHeader = false) :
    ((tw.Write p).2).wroteHeader = true ∧
    ((tw.Write p).2).code = statusOK ∧
    ((tw.Write p).2).WriteHeader code = (tw.Write p).2 ∧
    (((tw.Write p).2).WriteHeader code).copyToResponseWriter.1 =
      (tw.h.map fun kv => WEvent.setHeader kv.1 kv.2) ++
        [WEvent.writeHeader statusOK, WEvent.write (tw.wbuf ++ p)] := by
  have hw : (tw.Write p).2 =
      { tw with wroteHeader := true, code := statusOK, wbuf := tw.wbuf ++ p } := by
    simp [TimeoutWriter.Write, TimeoutWriter.writeHeader, h1, h2]
  rw [hw]
  refine ⟨rfl, rfl, ?_, ?_⟩
  · simp [TimeoutWriter.WriteHeader, h1]
  · simp [TimeoutWriter.WriteHeader, TimeoutWriter.copyToResponseWriter, h1]

/-- Witness for C10: an empty write on a fresh shim, followed by
`WriteHeader 404`, still flushes status 200. -/
theorem empty_write_locks_status_witness :
    ((initTW.Write []).2).wroteHeader = true ∧
    ((initTW.Write []).2).code = statusOK ∧
    ((initTW.Write []).2).WriteHeader 404 = (initTW.Write []).2 ∧
    (((initTW.Write []).2).WriteHeader 404).copyToResponseWriter.1 =
      [WEvent.writeHeader statusOK, WEvent.write []] :=
  empty_write_locks_status initTW [] 404 rfl rfl

/-- A side effect performed on the mgo collaborator by the session lease:
`parentSession.Copy()` (the fresh copy gets id `id`),
`newSession.SetSocketTimeout(d)`, `newSession.Close()`. -/
inductive SessEvent where
  | copy (id : Nat)
  | setSocketTimeout (id : Nat) (d : Nat)
  | close (id : Nat)
deriving DecidableEq

/-- The per-request lease state of `ServeHTTP`: the `newSession` slot
(`nil` until the first capability invocation), the number of `Copy()`
calls performed so far (doubling as the id supply for fresh copies), and
the trace of effects on the mgo collaborator. -/
structure LeaseState where
  newSession : Option Nat
  copyCount : Nat
  events : List SessEvent
deriving DecidableEq

/-- Lease state at request start: `var newSession *mgo.Session` (nil). -/
def initLease : LeaseState :=
  { newSession := none, copyCount := 0, events := [] }

/-- Sequential semantics of the `getSession` closure of
`SessionHandler.ServeHTTP` (equally `MongoSessionInjector.ServeHTTP`):
if a session already exists, return it unchanged; otherwise create a copy
of the parent session, apply `SetSocketTimeout t` to it, store it in the
slot and return it.  `t` is `c.timeout`, the same duration given to the
request-level race timer.  Tracing spans are an excluded collaborator. -/
def getSession (t : Nat) (st : LeaseState) : Nat × LeaseState :=
  match st.newSession with
  | some s => (s, st)
  | none =>
      let id := st.copyCount
      (id, { newSession := some id, copyCount := st.copyCount + 1,
             events := st.events ++ [SessEvent.copy id, SessEvent.setSocketTimeout id t] })

/-- The deferred teardown of `ServeHTTP`: under the lock, close the session
iff one was created.  The slot is not cleared by the source code. -/
def releaseSession (st : LeaseState) : LeaseState :=
  match st.newSession with
  | some s => { st with events := st.events ++ [SessEvent.close s] }
  | none => st

/-- `k` successive invocations of the session capability, as performed by
a handler that calls it `k` times during one request. -/
def iterateGet (t : Nat) : Nat → LeaseState → LeaseState
  | 0, st => st
  | k + 1, st => iterateGet t k (getSession t st).2

/-- Once the slot is populated, `getSession` returns the stored handle and
changes nothing. -/
theorem getSession_stable (t s : Nat) (st : LeaseState)
    (h : st.newSession = some s) : getSession t st = (s, st) := by
  simp [getSession, h]

/-- Once the slot is populated, any number of further invocations changes
nothing. -/
theorem iterateGet_stable (t s : Nat) (k : Nat) (st : LeaseState)
    (h : st.newSession = some s) : iterateGet t k st = st := by
  induction k with
  | zero => rfl
  | succ k ih =>
      show iterateGet t k (getSession t st).2 = st
      rw [getSession_stable t s st h]
      exact ih

/-- The state after the first capability invocation of a request. -/
theorem getSession_init (t : Nat) :
    getSession t initLease =
      (0, { newSession := some 0, copyCount := 1,
            events := [SessEvent.copy 0, SessEvent.setSocketTimeout 0 t] }) := rfl

/-- After at least one invocation the lease state is exactly the state the
first invocation created. -/
theorem iterateGet_init (t k : Nat) (hk : 1 ≤ k) :
    iterateGet t k initLease =
      { newSession := some 0, copyCount := 1,
        events := [SessEvent.copy 0, SessEvent.setSocketTimeout 0 t] } := by
  obtain ⟨j, rfl⟩ : ∃ j, k = j + 1 := ⟨k - 1, by omega⟩
  show iterateGet t j (getSession t initLease).2 = _
  rw [getSession_init]
  exact iterateGet_stable t 0 j _ rfl

/-- C2: invoking the session capability `k ≥ 1` times performs exactly one
`Copy` of the parent session, and every invocation after the first returns
the very handle the first invocation created, without touching the state. -/
theorem getSession_idempotent (t k : Nat) (hk : 1 ≤ k) :
    (iterateGet t k initLease).copyCount = 1 ∧
    (getSession t (iterateGet t k initLease)).1 = (getSession t initLease).1 ∧
    (getSession t (iterateGet t k initLease)).2 = iterateGet t k initLease := by
  rw [iterateGet_init t k hk, getSession_init]
  exact ⟨rfl, rfl, rfl⟩

/-- Witness for C2: four invocations with timeout 7. -/
theorem getSession_idempotent_witness :
    (iterateGet 7 4 initLease).copyCount = 1 ∧
    (getSession 7 (iterateGet 7 4 initLease)).1 = (getSession 7 initLease).1 ∧
    (getSession 7 (iterateGet 7 4 initLease)).2 = iterateGet 7 4 initLease :=
  getSession_idempotent 7 4 (by decide)

/-- C8: whenever the capability is invoked at least once, the effect trace
on the session is exactly one `Copy` followed immediately — at creation
time — by exactly one `SetSocketTimeout` carrying the configured timeout
duration `t`; invocations after the first add no further effect. -/
theorem setSocketTimeout_once (t k : Nat) (hk : 1 ≤ k) :
    (iterateGet t k initLease).events =
      [SessEvent.copy 0, SessEvent.setSocketTimeout 0 t] ∧
    (getSession t initLease).2.events =
      [SessEvent.copy 0, SessEvent.setSocketTimeout 0 t] := by
  rw [iterateGet_init t k hk, getSession_init]
  exact ⟨rfl, rfl⟩

/-- Witness for C8: three invocations with timeout 50. -/
theorem setSocketTimeout_once_witness :
    (iterateGet 50 3 initLease).events =
      [SessEvent.copy 0, SessEvent.setSocketTimeout 0 50] ∧
    (getSession 50 initLease).2.events =
      [SessEvent.copy 0, SessEvent.setSocketTimeout 0 50] :=
  setSocketTimeout_once 50 3 (by decide)

/-- The capability stored in the request context: the `getSession` closure,
whose captured mutable state is the lease.  (`internal.SessionGetter`; the
context value it also returns carries only tracing spans, an excluded
collaborator, and is not modelled.) -/
abbrev SessionGetter := LeaseState → Nat × LeaseState

/-- A request context, restricted to the `mgoSessionKeyType` entries:
`context.WithValue` chains are looked up newest-first, so the context is
the list of (database name, getter) pairs with the most recent first. -/
abbrev Ctx := List (String × SessionGetter)

/-- `internal.NewContext(ctx, dbName, getter)`:
`context.WithValue(ctx, GetMgoSessionKey(dbName), getter)`. -/
def NewContext (ctx : Ctx) (dbName : String) (getter : SessionGetter) : Ctx :=
  (dbName, getter) :: ctx

/-- `ctx.Value(internal.GetMgoSessionKey(database))` with the type
assertion to `internal.SessionGetter`: key equality is equality of the
`database` field of `mgoSessionKeyType`. -/
def ctxValue : Ctx → String → Option SessionGetter
  | [], _ => none
  | (k, g) :: rest, database =>
      if k = database then some g else ctxValue rest database

/-- The message of the `panic` in `FromContext`. -/
def fromContextPanicMsg (database : String) : String :=
  "SessionFromContext must receive a valid database name: " ++ database ++
    " not found"

/-- The restricted session wrapper `tracedMgoSession` returned to handler
code (its tracing context is an excluded collaborator). -/
structure TracedMgoSession where
  sess : Nat
deriving DecidableEq

/-- `FromContext(ctx, database)`: looks the getter up under the database
name; on success invokes it and wraps the session it produces; otherwise
panics.  The Go `panic` is modelled as `Except.error` carrying the panic
message; the lease state captured by the stored closures is threaded
explicitly. -/
def FromContext (ctx : Ctx) (database : String) (st : LeaseState) :
    Except String (TracedMgoSession × LeaseState) :=
  match ctxValue ctx database with
  | some getSess =>
      Except.ok ({ sess := (getSess st).1 }, (getSess st).2)
  | none => Except.error (fromContextPanicMsg database)

/-- C5: resolving the capability for a database name that was never
registered panics, and the panic message contains the missing database
name; resolving it for a name registered via `NewContext` returns the
session produced by the registered getter, without panicking. -/
theorem fromContext_panics_iff_unregistered
    (ctx : Ctx) (database : String) (st : LeaseState) (g : SessionGetter)
    (h : ctxValue ctx database = none) :
    FromContext ctx database st = Except.error (fromContextPanicMsg database) ∧
    (∃ pre post, fromContextPanicMsg database = pre ++ database ++ post) ∧
    FromContext (NewContext ctx database g) database st =
      Except.ok ({ sess := (g st).1 }, (g st).2) := by
  refine ⟨?_, ⟨"SessionFromContext must receive a valid database name: ",
    " not found", rfl⟩, ?_⟩
  · simp [FromContext, h]
  · simp [FromContext, NewContext, ctxValue]

/-- Witness for C5: the empty context holds no getter for "users"; after
registration the first-call getter of a request is invoked and its fresh
session copy (id 0) is returned. -/
theorem fromContext_panics_iff_unregistered_witness :
    FromContext [] "users" initLease =
      Except.error (fromContextPanicMsg "users") ∧
    (∃ pre post, fromContextPanicMsg "users" = pre ++ "users" ++ post) ∧
    FromContext (NewContext [] "users" (getSession 9)) "users" initLease =
      Except.ok ({ sess := (getSession 9 initLease).1 },
        (getSession 9 initLease).2) :=
  fromContext_panics_iff_unregistered [] "users" initLease (getSession 9) rfl

/-- `SessionHandlerConfig` restricted to the fields the race coordinator
uses; the parent session and the wrapped handler are opaque
collaborators. -/
structure SessionHandlerConfig where
  database : String
  timeout : Nat
deriving DecidableEq

/-- The `SessionHandler` middleware state (`mgohttp.SessionHandler`). -/
structure SessionHandler where
  database : String
  timeout : Nat
  errorCode : Nat
deriving DecidableEq

/-- `NewSessionHandler(cfg)`: copies the configuration and sets
`errorCode` to 503 (`http.StatusServiceUnavailable`); only the tests can
override it. -/
def NewSessionHandler (cfg : SessionHandlerConfig) : SessionHandler :=
  { database := cfg.database, timeout := cfg.timeout,
    errorCode := statusServiceUnavailable }

/-- One interaction of the wrapped handler with the shim or the injected
session capability: `tw.Header().Set(k, v)`, `tw.Write(p)`,
`tw.WriteHeader(code)`, or an invocation of the `getSession` closure. -/
inductive HandlerOp where
  | setHeader (k : String) (v : List String)
  | write (p : List Nat)
  | writeHeader (code : Nat)
  | getSession
deriving DecidableEq

/-- `http.Header.Set(k, v)` on the captured header map: replace the value
of `k`, or append the entry if absent. -/
def setHeaderMap : HeaderMap → String → List String → HeaderMap
  | [], k, v => [(k, v)]
  | (k0, v0) :: rest, k, v =>
      if k0 = k then (k, v) :: rest else (k0, v0) :: setHeaderMap rest k v

/-- Effect of one handler interaction on the shim and the lease. -/
def runHandlerStep (t : Nat) (s : TimeoutWriter × LeaseState) :
    HandlerOp → TimeoutWriter × LeaseState
  | HandlerOp.setHeader k v => ({ s.1 with h := setHeaderMap s.1.h k v }, s.2)
  | HandlerOp.write p => ((s.1.Write p).2, s.2)
  | HandlerOp.writeHeader code => (s.1.WriteHeader code, s.2)
  | HandlerOp.getSession => (s.1, (getSession t s.2).2)

/-- The wrapped handler's whole interaction during one request, run in
order. -/
def runHandler (t : Nat) : List HandlerOp → TimeoutWriter × LeaseState →
    TimeoutWriter × LeaseState
  | [], s => s
  | op :: rest, s => runHandler t rest (runHandlerStep t s op)

/-- Number of capability invocations in a handler script. -/
def countGet : List HandlerOp → Nat
  | [] => 0
  | HandlerOp.getSession :: rest => countGet rest + 1
  | _ :: rest => countGet rest

/-- `SessionHandler.ServeHTTP`, after the race has resolved: the handler
(script) ran against the shim and the capability; on the `done` branch the
shim is flushed to the real writer and the lease released; on the timer
branch the shim is marked timed out, the real writer receives a single
`WriteHeader(c.errorCode)`, and the lease is released.  The result is the
trace of calls on the real writer, the final shim, and the final lease.
The select construct guarantees exactly one branch runs, so exactly one of
the two write-paths touches the real writer. -/
def serveHTTP (c : SessionHandler) (script : List HandlerOp)
    (completedFirst : Bool) : List WEvent × TimeoutWriter × LeaseState :=
  let s := runHandler c.timeout script (initTW, initLease)
  if completedFirst then
    ((s.1.copyToResponseWriter).1, (s.1.copyToResponseWriter).2,
      releaseSession s.2)
  else
    ([WEvent.writeHeader c.errorCode], s.1.setTimedOut, releaseSession s.2)

/-- The shim state the handler script produces. -/
def handlerShimState (c : SessionHandler) (script : List HandlerOp) :
    TimeoutWriter :=
  (runHandler c.timeout script (initTW, initLease)).1

/-- The lease part of a handler run is exactly `countGet` capability
invocations; the shim operations do not touch the lease. -/
theorem runHandler_lease (t : Nat) (script : List HandlerOp) :
    ∀ tw ls, (runHandler t script (tw, ls)).2 =
      iterateGet t (countGet script) ls := by
  induction script with
  | nil => intro tw ls; rfl
  | cons op rest ih =>
      intro tw ls
      cases op with
      | setHeader k v => exact ih _ ls
      | write p => exact ih _ ls
      | writeHeader code => exact ih _ ls
      | getSession => exact ih tw (getSession t ls).2

/-- C4 (and the default behaviour of C4's "configured error status"):
whenever the deadline timer wins the race, the real writer's trace is
exactly one `WriteHeader` carrying the handler's error code — no header
copies, no body write, nothing from the shim's buffer — the shim is marked
timed out, and a handler built by `NewSessionHandler` carries error code
503. -/
theorem timeout_branch_writes_503_only
    (cfg : SessionHandlerConfig) (c : SessionHandler)
    (script : List HandlerOp) :
    (serveHTTP c script false).1 = [WEvent.writeHeader c.errorCode] ∧
    (serveHTTP c script false).2.1.timedOut = true ∧
    (NewSessionHandler cfg).errorCode = statusServiceUnavailable ∧
    (serveHTTP (NewSessionHandler cfg) script false).1 =
      [WEvent.writeHeader statusServiceUnavailable] := by
  refine ⟨rfl, ?_, rfl, rfl⟩
  simp [serveHTTP, TimeoutWriter.setTimedOut]

/-- The `Close` calls in a session-effect trace. -/
def closeEvents (evts : List SessEvent) : List SessEvent :=
  evts.filter fun e =>
    match e with
    | SessEvent.close _ => true
    | _ => false

/-- C6: on both branches of the race, the teardown closes the created
session exactly once when the capability was invoked at least once, and is
a no-op — lease state untouched, no `Close` call — when the capability was
never invoked. -/
theorem release_idempotent_teardown
    (c : SessionHandler) (script : List HandlerOp) (completedFirst : Bool) :
    (serveHTTP c script completedFirst).2.2 =
      (if countGet script = 0 then initLease
       else { newSession := some 0, copyCount := 1,
              events := [SessEvent.copy 0, SessEvent.setSocketTimeout 0 c.timeout,
                SessEvent.close 0] }) ∧
    closeEvents (serveHTTP c script completedFirst).2.2.events =
      (if countGet script = 0 then [] else [SessEvent.close 0]) := by
  have hl : (serveHTTP c script completedFirst).2.2 =
      releaseSession (iterateGet c.timeout (countGet script) initLease) := by
    cases completedFirst <;>
      simp [serveHTTP, runHandler_lease c.timeout script initTW initLease]
  rcases Nat.eq_zero_or_pos (countGet script) with h0 | h1
  · rw [hl, h0]
    exact ⟨rfl, rfl⟩
  · rw [hl, iterateGet_init c.timeout (countGet script) h1]
    rw [if_neg (by omega), if_neg (by omega)]
    exact ⟨rfl, rfl⟩

/-- The order claimed by the spec for the flush: the status code is
written to the real writer first (before the header copies and the body
write), i.e. the flush trace starts with a `WriteHeader` call. -/
def statusFlushedFirst (evs : List WEvent) : Prop :=
  ∃ code rest, evs = WEvent.writeHeader code :: rest

/-- A concrete handler and script for the flush-order counterexample: the
handler sets one header and writes two body bytes, then completes in
time. -/
def handlerColl : SessionHandler :=
  NewSessionHandler { database := "db", timeout := 100 }

/-- Script of the flush-order counterexample. -/
def scriptColl : List HandlerOp :=
  [HandlerOp.setHeader "Content-Type" ["text/plain"],
   HandlerOp.write [104, 105]]

/-- C3 counterexample: for a handler that completes in time having set one
header, the flush trace begins with the header copy, not with the status
write — the claimed order "status code, then headers, then body" does not
hold. -/
theorem flush_status_first_counterexample :
    (serveHTTP handlerColl scriptColl true).1 =
      [WEvent.setHeader "Content-Type" ["text/plain"],
       WEvent.writeHeader statusOK, WEvent.write [104, 105]] ∧
    ¬ statusFlushedFirst (serveHTTP handlerColl scriptColl true).1 := by
  refine ⟨rfl, ?_⟩
  rintro ⟨code, rest, hc⟩
  have : (serveHTTP handlerColl scriptColl true).1 =
      [WEvent.setHeader "Content-Type" ["text/plain"],
       WEvent.writeHeader statusOK, WEvent.write [104, 105]] := rfl
  rw [this] at hc
  exact WEvent.noConfusion (List.head_eq_of_cons_eq hc.symm)

/-- C3 as amended: when the handler completes before the deadline, the
shim's buffered output is flushed to the real writer exactly once, as
headers, then status code, then body, in that order, the status written
being the recorded one, defaulting to 200 when none was ever recorded. -/
theorem flush_headers_status_body_once
    (c : SessionHandler) (script : List HandlerOp) :
    (serveHTTP c script true).1 =
      ((handlerShimState c script).h.map fun kv => WEvent.setHeader kv.1 kv.2) ++
        [WEvent.writeHeader
          (if (handlerShimState c script).wroteHeader then
            (handlerShimState c script).code else statusOK),
         WEvent.write (handlerShimState c script).wbuf] := by
  show ((runHandler c.timeout script (initTW, initLease)).1.copyToResponseWriter).1 = _
  unfold handlerShimState
  cases hw : (runHandler c.timeout script (initTW, initLease)).1.wroteHeader <;>
    simp [TimeoutWriter.copyToResponseWriter, hw]

/-- Position of one caller inside the `getSession` closure: before the
unsynchronized `newSession != nil` fast-path check, before the
mutex-protected creation block, or returned with a session handle. -/
inductive ThreadPhase where
  | beforeCheck
  | beforeCreate
  | done (res : Nat)
deriving DecidableEq

/-- Shared state of two concurrent invocations of the `getSession` closure
of one request: the `newSession` slot, the number of `Copy()` calls
performed on the parent session, and each caller's phase. -/
structure GetterRace where
  slot : Option Nat
  copies : Nat
  thr0 : ThreadPhase
  thr1 : ThreadPhase
deriving DecidableEq

/-- Both callers are about to run the closure; no session exists yet. -/
def raceInit : GetterRace :=
  { slot := none, copies := 0, thr0 := ThreadPhase.beforeCheck,
    thr1 := ThreadPhase.beforeCheck }

/-- One caller's next step, faithful to the source's control flow: the
fast-path check `if newSession != nil { return newSession }` reads the
slot without holding the lock; the `sessionMutex.Lock() ... Unlock()`
region — which creates a copy and stores it *without re-checking the
slot* — is a single atomic step, as the mutex guarantees. -/
def stepPhase (slot : Option Nat) (copies : Nat) :
    ThreadPhase → ThreadPhase × Option Nat × Nat
  | ThreadPhase.beforeCheck =>
      match slot with
      | some s => (ThreadPhase.done s, slot, copies)
      | none => (ThreadPhase.beforeCreate, slot, copies)
  | ThreadPhase.beforeCreate =>
      (ThreadPhase.done copies, some copies, copies + 1)
  | ThreadPhase.done r => (ThreadPhase.done r, slot, copies)

/-- Run the step of the scheduled caller (`false` = caller 0). -/
def raceStep (st : GetterRace) (tid : Bool) : GetterRace :=
  if tid then
    let r := stepPhase st.slot st.copies st.thr1
    { st with thr1 := r.1, slot := r.2.1, copies := r.2.2 }
  else
    let r := stepPhase st.slot st.copies st.thr0
    { st with thr0 := r.1, slot := r.2.1, copies := r.2.2 }

/-- Run an interleaving of the two callers. -/
def runSched (sched : List Bool) (st : GetterRace) : GetterRace :=
  sched.foldl raceStep st

/-- C9 failing execution: when both callers pass the unsynchronized
`newSession != nil` check before either enters the locked region, each
locked region then creates a copy unconditionally — the parent session is
copied twice, the two callers obtain different handles, and the slot
retains only the second copy (the first is never closed by the deferred
teardown). -/
theorem concurrent_getSession_two_copies :
    runSched [false, true, false, true] raceInit =
      { slot := some 1, copies := 2, thr0 := ThreadPhase.done 0,
        thr1 := ThreadPhase.done 1 } ∧
    (runSched [false, true, false, true] raceInit).copies = 2 ∧
    ThreadPhase.done 0 ≠ ThreadPhase.done 1 := by
  refine ⟨rfl, rfl, by decide⟩
